import Mathlib

/-!
Verification of the SF crime dashboard artifact pipeline.

This file gives a shallow embedding of the two source files of the
repository:

* `src/build_dashboard_artifacts.py` — the batch derivation step: schema
  validation, the monthly time-axis resolution, numeric/timestamp coercion,
  the dropna over grouping columns, and the `groupby(...).size()` +
  `sort_values([...])` aggregation producing the neighborhood×category
  monthly artifact, and
* `dashboard/app.py` — the consumer loaders `load_monthly`,
  `load_hourly_weekday`, `load_forecast`, and the citywide monthly
  groupby-sum views (`city_monthly`, `hist_citywide`).

Timestamps are modelled at day granularity (a month key plus a day),
values that went through `pd.to_datetime(..., errors="coerce")` or
`pd.to_numeric(..., errors="coerce")` are `Option`-valued (`none` is the
NaT/NaN sentinel for an unparsable or missing value), and pandas tables
are a list of column names together with a list of rows.  Sorting in
pandas (`groupby` key order, multi-column `sort_values`) is realized with
`List.insertionSort`, which is a stable sorting algorithm like the one
pandas uses for multi-key sorts.  Python string comparison is
lexicographic on code points, which is exactly the order on `String.data`
(a `List Char`) used below.
-/

namespace SFCrime

/-- Order used by Python when comparing strings (for `sorted(...)` and
`sort_values` on string columns): lexicographic on the code points, i.e.
the order of the underlying character lists. -/
def strLe (a b : String) : Prop := a.data ≤ b.data

instance : DecidableRel strLe := fun a b => inferInstanceAs (Decidable (a.data ≤ b.data))

instance : IsTrans String strLe := ⟨fun _ _ _ h1 h2 => le_trans h1 h2⟩

instance : IsTotal String strLe := ⟨fun a b => le_total a.data b.data⟩

instance : IsAntisymm String strLe := ⟨fun _ _ h1 h2 => String.ext (le_antisymm h1 h2)⟩

/-- Month key: the calendar year and the month number of a monthly
timestamp, ordered lexicographically (chronologically). -/
structure Month where
  y : Int
  m : Nat
deriving DecidableEq, Repr

/-- Lexicographic (chronological) key of a month. -/
def Month.key (d : Month) : Int ×ₗ Nat := toLex (d.y, d.m)

/-- Chronological order on months. -/
def Month.le (a b : Month) : Prop := a.key ≤ b.key

instance : DecidableRel Month.le := fun a b => inferInstanceAs (Decidable (a.key ≤ b.key))

/-- Successor month (used to state the "no gaps" property of a monthly
series). -/
def Month.next (d : Month) : Month := if 12 ≤ d.m then ⟨d.y + 1, 1⟩ else ⟨d.y, d.m + 1⟩

/-- Timestamp at day granularity: the containing month plus the day of
month.  `pd.to_datetime` values are modelled at this granularity; ordering
is chronological (lexicographic on month then day). -/
structure Timestamp where
  ym : Month
  day : Nat
deriving DecidableEq, Repr

/-- Chronological key of a timestamp. -/
def Timestamp.key (t : Timestamp) : (Int ×ₗ Nat) ×ₗ Nat := toLex (t.ym.key, t.day)

/-- Chronological order on timestamps. -/
def Timestamp.le (a b : Timestamp) : Prop := a.key ≤ b.key

/-- Strict chronological order on timestamps. -/
def Timestamp.lt (a b : Timestamp) : Prop := a.key < b.key

instance : DecidableRel Timestamp.le := fun a b => inferInstanceAs (Decidable (a.key ≤ b.key))

instance : DecidableRel Timestamp.lt := fun a b => inferInstanceAs (Decidable (a.key < b.key))

instance : IsTrans Timestamp Timestamp.le := ⟨fun _ _ _ h1 h2 => le_trans h1 h2⟩

instance : IsTotal Timestamp Timestamp.le := ⟨fun a b => le_total a.key b.key⟩

/-- Truncation of a timestamp to its containing month, as performed by
`.dt.to_period("M").dt.to_timestamp()` in the builder: the first day of
the containing month. -/
def Timestamp.truncToMonth (t : Timestamp) : Timestamp := ⟨t.ym, 1⟩

/-! Builder: `src/build_dashboard_artifacts.py` -/

/-- Errors raised by the builder `main()`: the missing-columns
`ValueError` (carrying the list of missing columns, in the order the
message interpolates them) and the no-time-source `ValueError`. -/
inductive BuildError where
  | missingColumns (missing : List String)
  | noTimeSource
deriving DecidableEq, Repr

/-- Required columns of the incidents table,
`required = ["neighborhood", "incident_category", "year"]`
(build_dashboard_artifacts.py:17). -/
def requiredBuild : List String := ["neighborhood", "incident_category", "year"]

/-- Missing required columns,
`missing = [c for c in required if c not in df.columns]`
(build_dashboard_artifacts.py:18): the list comprehension keeps the
declared order of `required`. -/
def missingBuild (cols : List String) : List String :=
  requiredBuild.filter fun c => decide (c ∉ cols)

/-- Raw incident row.  Each field is the post-coercion value of the
correspondingly named column: timestamp-like columns hold the result of
`pd.to_datetime(..., errors="coerce")` (`none` = NaT), `year` holds the
result of `pd.to_numeric(..., errors="coerce")` (`none` = NaN), and the
label columns hold `none` when the stored cell is null.  A field is only
meaningful when its column is present in the table schema. -/
structure RawRow where
  year_month : Option Timestamp
  month : Option Timestamp
  incident_datetime : Option Timestamp
  year : Option Int
  neighborhood : Option String
  incident_category : Option String
deriving DecidableEq, Repr

/-- Raw incidents table: schema (column names) plus rows. -/
structure RawTable where
  cols : List String
  rows : List RawRow
deriving DecidableEq, Repr

/-- Schema validation of the builder
(build_dashboard_artifacts.py:18-20): raise on a non-empty missing list,
otherwise continue with the table unchanged. -/
def validateBuild (t : RawTable) : Except BuildError RawTable :=
  if missingBuild t.cols ≠ [] then .error (.missingColumns (missingBuild t.cols)) else .ok t

/-- Which column the monthly time axis is built from
(build_dashboard_artifacts.py:23-30). -/
inductive TimeSource where
  | yearMonthCol
  | monthCol
  | datetimeCol
deriving DecidableEq, Repr

/-- Time-axis resolution (build_dashboard_artifacts.py:23-30): the
if/elif/elif/else chain over the schema, first available column wins;
the final `else` raises the no-time-source `ValueError`. -/
def resolveTimeSource (cols : List String) : Except BuildError TimeSource :=
  if "year_month" ∈ cols then .ok .yearMonthCol
  else if "month" ∈ cols then .ok .monthCol
  else if "incident_datetime" ∈ cols then .ok .datetimeCol
  else .error .noTimeSource

/-- Per-row canonical month value `ym` (build_dashboard_artifacts.py:24-28):
the parsed `year_month` column, or the parsed `month` column, or the
parsed `incident_datetime` truncated to its containing month.  The parse
is `errors="coerce"`, so a per-row failure is `none`, never an
exception. -/
def derivedMonth (src : TimeSource) (r : RawRow) : Option Timestamp :=
  match src with
  | .yearMonthCol => r.year_month
  | .monthCol => r.month
  | .datetimeCol => r.incident_datetime.map Timestamp.truncToMonth

/-- Grouping key of one aggregated row: the four `groupby` columns of the
builder (build_dashboard_artifacts.py:39). -/
structure AggKey where
  year_month : Timestamp
  year : Int
  neighborhood : String
  incident_category : String
deriving DecidableEq, Repr

/-- Key tuple in the declared `groupby` key order
`["year_month", "year", "neighborhood", "incident_category"]`, compared
lexicographically — pandas `groupby` emits its groups in this order. -/
def AggKey.fullKey (k : AggKey) :
    ((Int ×ₗ Nat) ×ₗ Nat) ×ₗ (Int ×ₗ (List Char ×ₗ List Char)) :=
  toLex (k.year_month.key, toLex (k.year, toLex (k.neighborhood.data, k.incident_category.data)))

/-- Order of the `groupby` output: lexicographic on the full key tuple. -/
def AggKey.fullLe (a b : AggKey) : Prop := a.fullKey ≤ b.fullKey

instance : DecidableRel AggKey.fullLe := fun a b => inferInstanceAs (Decidable (a.fullKey ≤ b.fullKey))

instance : IsTrans AggKey AggKey.fullLe := ⟨fun _ _ _ h1 h2 => le_trans h1 h2⟩

instance : IsTotal AggKey AggKey.fullLe := ⟨fun a b => le_total a.fullKey b.fullKey⟩

/-- Key tuple in the `sort_values` key order
`["year_month", "neighborhood", "incident_category"]`
(build_dashboard_artifacts.py:42) — note that `year` is not one of the
sort keys. -/
def AggKey.sortKey (k : AggKey) :
    ((Int ×ₗ Nat) ×ₗ Nat) ×ₗ (List Char ×ₗ List Char) :=
  toLex (k.year_month.key, toLex (k.neighborhood.data, k.incident_category.data))

/-- Order used by the builder's final `sort_values`. -/
def AggKey.sortLe (a b : AggKey) : Prop := a.sortKey ≤ b.sortKey

instance : DecidableRel AggKey.sortLe := fun a b => inferInstanceAs (Decidable (a.sortKey ≤ b.sortKey))

instance : IsTrans AggKey AggKey.sortLe := ⟨fun _ _ _ h1 h2 => le_trans h1 h2⟩

instance : IsTotal AggKey AggKey.sortLe := ⟨fun a b => le_total a.sortKey b.sortKey⟩

/-- The builder's `sort_values` order lifted to artifact rows
(key, count): rows are compared by key only, counts are carried along. -/
def pairSortLe (p q : AggKey × Nat) : Prop := AggKey.sortLe p.1 q.1

instance : DecidableRel pairSortLe := fun p q => inferInstanceAs (Decidable (AggKey.sortLe p.1 q.1))

instance : IsTrans (AggKey × Nat) pairSortLe := ⟨fun _ _ _ h1 h2 => Trans.trans (r := AggKey.sortLe) h1 h2⟩

instance : IsTotal (AggKey × Nat) pairSortLe := ⟨fun p q => IsTotal.total (r := AggKey.sortLe) p.1 q.1⟩

instance : IsAntisymm AggKey AggKey.fullLe := ⟨fun a b h1 h2 => by
  have h : a.fullKey = b.fullKey := le_antisymm h1 h2
  cases a with | mk ts y n c =>
  cases b with | mk ts2 y2 n2 c2 =>
  cases ts with | mk ym d =>
  cases ts2 with | mk ym2 d2 =>
  cases ym with | mk yy mm =>
  cases ym2 with | mk yy2 mm2 =>
  simp only [AggKey.fullKey, Timestamp.key, Month.key, toLex_inj, Prod.mk.injEq] at h
  obtain ⟨⟨⟨hy, hm⟩, hd⟩, hyr, hn, hc⟩ := h
  subst hy; subst hm; subst hd; subst hyr
  simp only [AggKey.mk.injEq, Timestamp.mk.injEq, Month.mk.injEq, and_self, true_and]
  exact ⟨String.ext hn, String.ext hc⟩⟩

/-- The claim's declared-key-order relation on artifact rows: compare by
the full `groupby` key tuple (year_month, year, neighborhood,
incident_category). -/
def pairFullLe (p q : AggKey × Nat) : Prop := AggKey.fullLe p.1 q.1

instance : DecidableRel pairFullLe := fun p q => inferInstanceAs (Decidable (AggKey.fullLe p.1 q.1))

/-- The `groupby(...).size().reset_index(name="incidents")` step
(build_dashboard_artifacts.py:38-41): one row per distinct key, in the
sorted `groupby` key order, whose count is the number of input rows with
that key. -/
def groupbySize (l : List AggKey) : List (AggKey × Nat) :=
  (List.insertionSort AggKey.fullLe l.dedup).map fun k => (k, l.count k)

/-- The full aggregation (build_dashboard_artifacts.py:38-44): `groupby`
sizes, then a stable `sort_values(["year_month", "neighborhood",
"incident_category"])`. -/
def monthly_nbh_cat (l : List AggKey) : List (AggKey × Nat) :=
  List.insertionSort pairSortLe (groupbySize l)

/-- Grouping key of one raw row after coercion, when complete: the
`dropna(subset=["year_month", "year", "neighborhood",
"incident_category"])` of build_dashboard_artifacts.py:35 keeps exactly
the rows whose key is `some`. -/
def rowKey (src : TimeSource) (r : RawRow) : Option AggKey :=
  match derivedMonth src r, r.year, r.neighborhood, r.incident_category with
  | some ym, some yr, some n, some c => some ⟨ym, yr, n, c⟩
  | _, _, _, _ => none

/-- `main()` of the builder, from schema validation to the aggregated
artifact (build_dashboard_artifacts.py:17-44): validate the schema,
resolve the time axis, coerce and drop incomplete rows, group and
sort. -/
def buildMain (t : RawTable) : Except BuildError (List (AggKey × Nat)) := do
  let t ← validateBuild t
  let src ← resolveTimeSource t.cols
  .ok (monthly_nbh_cat (t.rows.filterMap (rowKey src)))

/-- Total incident count of an aggregated artifact (the sum of the
`incidents` column). -/
def totalCount (art : List (AggKey × Nat)) : Nat := (art.map fun p => p.2).sum

/-- Expansion of an aggregated artifact back into one row per counted
incident (the claim's re-expansion operation for the idempotence
property): each artifact row (key, count) becomes `count` copies of its
key. -/
def expandRows (art : List (AggKey × Nat)) : List AggKey :=
  art.flatMap fun p => List.replicate p.2 p.1

/-! Dashboard loaders: `dashboard/app.py` -/

/-- Shared validation pattern of the three loaders
(app.py:44-47, 63-66, 82-85): `missing = required - set(df.columns)`,
raise `ValueError(f"... {sorted(missing)}")` when non-empty.  The error
payload is the sorted list of missing column names. -/
def validateArtifact (req cols : List String) : Except (List String) Unit :=
  if (req.filter fun c => decide (c ∉ cols)) ≠ [] then
    .error (List.insertionSort strLe (req.filter fun c => decide (c ∉ cols)))
  else .ok ()

/-- Required columns of the monthly artifact (app.py:44). -/
def requiredMonthly : List String := ["month", "neighborhood", "incident_category", "incidents"]

/-- Required columns of the hour×weekday artifact (app.py:63). -/
def requiredHourly : List String := ["weekday_label", "hour", "incident_category", "incidents"]

/-- Required columns of the forecast artifact (app.py:82). -/
def requiredForecast : List String := ["month", "forecast", "lower", "upper"]

/-- Stored row of the monthly neighborhood×category artifact as read by
`load_monthly`.  `month` is the result of
`pd.to_datetime(..., errors="coerce")` (`none` = NaT), `incidents` of
`pd.to_numeric(..., errors="coerce")` (`none` = NaN); `year` models a
year column possibly present in the stored artifact (the loader
recomputes it). -/
structure MonthlyRawRow where
  month : Option Timestamp
  neighborhood : String
  incident_category : String
  incidents : Option Int
  year : Option Int
deriving DecidableEq, Repr

/-- Stored monthly artifact: schema plus rows. -/
structure MonthlyTable where
  cols : List String
  rows : List MonthlyRawRow
deriving DecidableEq, Repr

/-- Row of the loaded monthly view: month parsed and non-null, incidents
filled to 0 and integral, year derived from the month
(app.py:49-54). -/
structure MonthlyRow where
  month : Timestamp
  neighborhood : String
  incident_category : String
  incidents : Int
  year : Int
deriving DecidableEq, Repr

/-- `load_monthly` (app.py:40-55): validate the required columns, parse
`month` and drop rows where it is NaT, coerce `incidents` with
`.fillna(0).astype(int)`, and set `year` to the calendar year of the
parsed month. -/
def load_monthly (t : MonthlyTable) : Except (List String) (List MonthlyRow) := do
  let _ ← validateArtifact requiredMonthly t.cols
  .ok (t.rows.filterMap fun r => r.month.map fun ts =>
    ⟨ts, r.neighborhood, r.incident_category, r.incidents.getD 0, ts.ym.y⟩)

/-- Stored row of the hour×weekday artifact as read by
`load_hourly_weekday`: `hour` and `incidents` are post
`pd.to_numeric(..., errors="coerce")` (`none` = NaN). -/
structure HourlyRawRow where
  weekday_label : String
  hour : Option Int
  incident_category : String
  incidents : Option Int
deriving DecidableEq, Repr

/-- Stored hour×weekday artifact: schema plus rows. -/
structure HourlyTable where
  cols : List String
  rows : List HourlyRawRow
deriving DecidableEq, Repr

/-- Row of the loaded hour×weekday view (app.py:68-75). -/
structure HourlyRow where
  weekday_label : String
  hour : Int
  incident_category : String
  incidents : Int
deriving DecidableEq, Repr

/-- The hour value after `pd.to_numeric(df["hour"],
errors="coerce").fillna(0).astype(int)` (app.py:68): an unparsable hour
becomes the fallback 0. -/
def coercedHour (r : HourlyRawRow) : Int := r.hour.getD 0

/-- The loaded view of one stored hour×weekday row (coercions of
app.py:68-73 applied). -/
def procHourly (r : HourlyRawRow) : HourlyRow :=
  ⟨r.weekday_label, coercedHour r, r.incident_category, r.incidents.getD 0⟩

/-- `load_hourly_weekday` (app.py:59-75): validate the required columns,
coerce `hour` with fallback 0, keep only rows with
`0 <= hour <= 23` (app.py:69), then coerce `incidents` and the string
columns. -/
def load_hourly_weekday (t : HourlyTable) : Except (List String) (List HourlyRow) := do
  let _ ← validateArtifact requiredHourly t.cols
  .ok ((t.rows.filter fun r => decide (0 ≤ coercedHour r ∧ coercedHour r ≤ 23)).map procHourly)

/-- Stored row of the forecast artifact as read by `load_forecast`:
`month` post `pd.to_datetime(..., errors="coerce")`, the three value
columns post `pd.to_numeric(..., errors="coerce")` (`none` = NaN, which
the loader keeps). -/
structure ForecastRawRow where
  month : Option Timestamp
  forecast : Option Int
  lower : Option Int
  upper : Option Int
deriving DecidableEq, Repr

/-- Stored forecast artifact: schema plus rows. -/
structure ForecastTable where
  cols : List String
  rows : List ForecastRawRow
deriving DecidableEq, Repr

/-- Row of the loaded forecast view: month parsed and non-null, values
kept as coerced (possibly NaN). -/
structure ForecastRow where
  month : Timestamp
  forecast : Option Int
  lower : Option Int
  upper : Option Int
deriving DecidableEq, Repr

/-- The `sort_values("month")` order on loaded forecast rows. -/
def frowLe (a b : ForecastRow) : Prop := a.month.key ≤ b.month.key

instance : DecidableRel frowLe := fun a b => inferInstanceAs (Decidable (a.month.key ≤ b.month.key))

instance : IsTrans ForecastRow frowLe := ⟨fun _ _ _ h1 h2 => le_trans h1 h2⟩

instance : IsTotal ForecastRow frowLe := ⟨fun a b => le_total a.month.key b.month.key⟩

/-- `load_forecast` (app.py:79-93): validate the required columns, parse
`month`, drop NaT months, sort by month, and coerce the value columns
(keeping NaN). -/
def load_forecast (t : ForecastTable) : Except (List String) (List ForecastRow) := do
  let _ ← validateArtifact requiredForecast t.cols
  .ok (List.insertionSort frowLe (t.rows.filterMap fun r => r.month.map fun ts =>
    ⟨ts, r.forecast, r.lower, r.upper⟩))

/-- The `sort_values("month")` order on (month, incidents) pairs of the
citywide series. -/
def pairMonthLe (p q : Timestamp × Int) : Prop := p.1.key ≤ q.1.key

instance : DecidableRel pairMonthLe := fun p q => inferInstanceAs (Decidable (p.1.key ≤ q.1.key))

instance : IsTrans (Timestamp × Int) pairMonthLe := ⟨fun _ _ _ h1 h2 => le_trans h1 h2⟩

instance : IsTotal (Timestamp × Int) pairMonthLe := ⟨fun p q => le_total p.1.key q.1.key⟩

/-- Sum of the `incidents` column over the rows of a given month, i.e.
the value `groupby("month")["incidents"].sum()` assigns to that
month. -/
def sumIncidents (rows : List MonthlyRow) (ts : Timestamp) : Int :=
  ((rows.filter fun r => decide (r.month = ts)).map fun r => r.incidents).sum

/-- `groupby("month", ...)["incidents"].sum()`: one row per distinct
month, in sorted month order, with the summed incidents. -/
def groupbySumMonth (rows : List MonthlyRow) : List (Timestamp × Int) :=
  (List.insertionSort Timestamp.le (rows.map fun r => r.month).dedup).map
    fun ts => (ts, sumIncidents rows ts)

/-- The citywide monthly series `groupby("month", as_index=False,
observed=True)["incidents"].sum().sort_values("month")`, computed
identically for `city_monthly` (app.py:238-242, on the filtered monthly
view) and `hist_citywide` (app.py:340-344, on the full monthly
view). -/
def city_monthly (rows : List MonthlyRow) : List (Timestamp × Int) :=
  List.insertionSort pairMonthLe (groupbySumMonth rows)

/-- Distinct neighborhoods of a monthly view. -/
def nbhList (rows : List MonthlyRow) : List String := (rows.map fun r => r.neighborhood).dedup

/-- Distinct incident categories of a monthly view. -/
def catList (rows : List MonthlyRow) : List String := (rows.map fun r => r.incident_category).dedup

/-- The Neighborhood×Category Monthly count of one (month, neighborhood,
category) cell of the loaded monthly artifact: the summed `incidents` of
its rows (one row per cell when the artifact is deduplicated; summing
covers the general case). -/
def nbhCatCount (rows : List MonthlyRow) (ts : Timestamp) (n cat : String) : Int :=
  ((rows.filter fun r =>
    decide (r.month = ts ∧ r.neighborhood = n ∧ r.incident_category = cat)).map
      fun r => r.incidents).sum

/-! Claim-level properties and concrete example inputs -/

/-- Bounds check of one loaded forecast row, as the Forecast invariant
claim reads it: the three values are present (not NaN) and satisfy
`lower <= forecast <= upper`. -/
def rowBoundsOkB (p : ForecastRow) : Bool :=
  match p.forecast, p.lower, p.upper with
  | some f, some lo, some up => decide (lo ≤ f) && decide (f ≤ up)
  | _, _, _ => false

/-- The Forecast invariant exactly as claimed: every exposed row
satisfies `lower <= forecast <= upper`, and the months form a strictly
increasing sequence with no gaps (each month is the calendar successor of
the previous one). -/
def forecastClaimOk (out : List ForecastRow) : Prop :=
  (∀ p ∈ out, rowBoundsOkB p = true) ∧
  List.Chain' (fun a b => Timestamp.lt a b ∧ b.ym = a.ym.next) (out.map fun p => p.month)

instance : ∀ out, Decidable (forecastClaimOk out) := fun out => by
  unfold forecastClaimOk; infer_instance

/-- Forecast artifact on which the loader exposes a row with
`lower > forecast` and a one-month gap between consecutive months. -/
def fcBadTable : ForecastTable :=
  ⟨["month", "forecast", "lower", "upper"],
   [⟨some ⟨⟨2026, 1⟩, 1⟩, some 5, some 10, some 3⟩,
    ⟨some ⟨⟨2026, 3⟩, 1⟩, some 5, some 4, some 6⟩]⟩

/-- The view `load_forecast` produces for `fcBadTable`. -/
def fcBadOut : List ForecastRow :=
  [⟨⟨⟨2026, 1⟩, 1⟩, some 5, some 10, some 3⟩,
   ⟨⟨⟨2026, 3⟩, 1⟩, some 5, some 4, some 6⟩]

/-- Well-formed forecast artifact (stored out of month order) used to
witness the amended forecast-loader property. -/
def fcGoodTable : ForecastTable :=
  ⟨["month", "forecast", "lower", "upper"],
   [⟨some ⟨⟨2026, 2⟩, 1⟩, some 10, some 8, some 12⟩,
    ⟨some ⟨⟨2026, 1⟩, 1⟩, some 9, some 7, some 11⟩]⟩

/-- The view `load_forecast` produces for `fcGoodTable`. -/
def fcGoodOut : List ForecastRow :=
  [⟨⟨⟨2026, 1⟩, 1⟩, some 9, some 7, some 11⟩,
   ⟨⟨⟨2026, 2⟩, 1⟩, some 10, some 8, some 12⟩]

/-- Aggregation key whose `year` is larger, but whose `neighborhood` is
smaller, than `cexKeyB`'s within the same month: the pair exposes that
`year` is not among the builder's `sort_values` keys. -/
def cexKeyA : AggKey := ⟨⟨⟨2024, 1⟩, 1⟩, 2019, "B", "x"⟩

/-- Companion key to `cexKeyA` (same month, smaller year, larger
neighborhood). -/
def cexKeyB : AggKey := ⟨⟨⟨2024, 1⟩, 1⟩, 2018, "C", "x"⟩

/-- Sample aggregation key for witnesses. -/
def sampleKey : AggKey := ⟨⟨⟨2024, 2⟩, 1⟩, 2024, "Mission", "Theft"⟩

/-- Canonical month used by the consistency-invariant witness. -/
def wMonth : Timestamp := ⟨⟨2024, 1⟩, 1⟩

/-- Monthly view with two neighborhood×category cells in one month
(3 thefts and 2 assaults in the Mission), used by the
consistency-invariant witness. -/
def wRowsMonthly : List MonthlyRow :=
  [⟨wMonth, "Mission", "Theft", 3, 2024⟩,
   ⟨wMonth, "Mission", "Assault", 2, 2024⟩]

/-- Stored hour×weekday artifact with an unparsable hour, an
out-of-range hour, and an in-range hour. -/
def hrTable : HourlyTable :=
  ⟨["weekday_label", "hour", "incident_category", "incidents"],
   [⟨"Monday", none, "Theft", some 4⟩,
    ⟨"Tuesday", some 30, "Theft", some 2⟩,
    ⟨"Friday", some 5, "Assault", none⟩]⟩

/-- The view `load_hourly_weekday` produces for `hrTable`: the unparsable
hour is kept at 0, the out-of-range row is dropped. -/
def hrOut : List HourlyRow :=
  [⟨"Monday", 0, "Theft", 4⟩,
   ⟨"Friday", 5, "Assault", 0⟩]

/-- Raw incidents table (time axis from the `month` column) used by the
builder witnesses. -/
def bTable : RawTable :=
  ⟨["neighborhood", "incident_category", "year", "month"],
   [⟨none, some ⟨⟨2024, 1⟩, 1⟩, none, some 2024, some "Mission", some "Theft"⟩]⟩

/-- Raw incident row with an unparsable timestamp (NaT month and no other
time source value), used to witness the silent-drop property. -/
def bBadRow : RawRow := ⟨none, none, none, some 2024, some "Mission", some "Theft"⟩

/-- Stored monthly artifact with a stale stored `year` column and one
unparsable month, used by the recomputed-year witness. -/
def mTable : MonthlyTable :=
  ⟨["month", "neighborhood", "incident_category", "incidents"],
   [⟨some ⟨⟨2023, 5⟩, 1⟩, "Mission", "Theft", some 7, some 1999⟩,
    ⟨none, "Mission", "Theft", some 1, some 2050⟩]⟩

/-- The view `load_monthly` produces for `mTable`. -/
def mOut : List MonthlyRow := [⟨⟨⟨2023, 5⟩, 1⟩, "Mission", "Theft", 7, 2023⟩]

/-! Helper lemmas -/

/-- Sum of a pointwise addition splits into two sums. -/
theorem sum_map_add_split {α M : Type} [AddCommMonoid M] (l : List α) (f g : α → M) :
    (l.map fun a => f a + g a).sum = (l.map f).sum + (l.map g).sum := by
  induction l with
  | nil => simp
  | cons x t ih =>
    simp only [List.map_cons, List.sum_cons, ih]
    exact add_add_add_comm _ _ _ _

/-- Summing an indicator over a duplicate-free list that contains the hit
picks out exactly the hit. -/
theorem sum_map_ite_single {β M : Type} [AddCommMonoid M] [DecidableEq β] (P : List β) (b : β)
    (g : β → M) (hnd : P.Nodup) (hb : b ∈ P) :
    (P.map fun p => if p = b then g p else 0).sum = g b := by
  induction P with
  | nil => cases hb
  | cons q Q ih =>
    rcases List.mem_cons.mp hb with h | h
    · subst h
      have hz : ∀ x ∈ Q.map fun p => if p = b then g p else 0, x = 0 := by
        intro x hx
        rcases List.mem_map.mp hx with ⟨p, hp, rfl⟩
        have hne : p ≠ b := fun he => (List.nodup_cons.mp hnd).1 (he ▸ hp)
        simp [hne]
      simp only [List.map_cons, List.sum_cons]
      rw [List.sum_eq_zero hz, add_zero]
      simp
    · have hq : q ≠ b := fun he => (List.nodup_cons.mp hnd).1 (he ▸ h)
      simp only [List.map_cons, List.sum_cons, if_neg hq]
      rw [ih (List.nodup_cons.mp hnd).2 h, zero_add]

/-- Indicator sum over a list not containing the hit is zero. -/
theorem sum_map_ite_zero {β M : Type} [AddCommMonoid M] [DecidableEq β] (P : List β) (b : β)
    (g : β → M) (hb : b ∉ P) :
    (P.map fun p => if p = b then g p else 0).sum = 0 := by
  apply List.sum_eq_zero
  intro x hx
  rcases List.mem_map.mp hx with ⟨p, hp, rfl⟩
  have hne : p ≠ b := fun he => hb (he ▸ hp)
  simp [hne]

/-- Partitioning a sum over a list by a key function: when `P` is a
duplicate-free list of keys covering the list, the total sum is the sum
over keys of the per-key group sums. -/
theorem sum_partition {α β M : Type} [AddCommMonoid M] [DecidableEq β]
    (P : List β) (key : α → β) (f : α → M) (hnd : P.Nodup) :
    ∀ l : List α, (∀ a ∈ l, key a ∈ P) →
      (l.map f).sum = (P.map fun p => ((l.filter fun a => decide (key a = p)).map f).sum).sum := by
  intro l
  induction l with
  | nil => intro _; simp
  | cons x t ih =>
    intro hcov
    have hx : key x ∈ P := hcov x (List.mem_cons_self x t)
    have ht := ih fun a ha => hcov a (List.mem_cons_of_mem x ha)
    have hpt : ∀ p : β, ((List.filter (fun a => decide (key a = p)) (x :: t)).map f).sum
        = (if p = key x then f x else 0) + ((t.filter fun a => decide (key a = p)).map f).sum := by
      intro p
      by_cases h : key x = p
      · subst h
        simp [List.filter_cons]
      · simp [List.filter_cons, h, Ne.symm h]
    calc ((x :: t).map f).sum = f x + (t.map f).sum := by simp
    _ = f x + (P.map fun p => ((t.filter fun a => decide (key a = p)).map f).sum).sum := by rw [ht]
    _ = (P.map fun p => (if p = key x then f x else 0)).sum
        + (P.map fun p => ((t.filter fun a => decide (key a = p)).map f).sum).sum := by
          rw [sum_map_ite_single P (key x) (fun _ => f x) hnd hx]
    _ = (P.map fun p => (if p = key x then f x else 0)
        + ((t.filter fun a => decide (key a = p)).map f).sum).sum :=
          (sum_map_add_split P _ _).symm
    _ = (P.map fun p => ((List.filter (fun a => decide (key a = p)) (x :: t)).map f).sum).sum :=
          congrArg List.sum (List.map_congr_left fun p _ => (hpt p).symm)

/-- A sum over the cartesian product of two lists is the corresponding
nested double sum. -/
theorem sum_product_nested {β γ M : Type} [AddCommMonoid M] (A : List β) (B : List γ)
    (g : β → γ → M) :
    ((A.product B).map fun p => g p.1 p.2).sum
      = (A.map fun a => (B.map fun b => g a b).sum).sum := by
  induction A with
  | nil => simp [List.product]
  | cons a A ih =>
    have hpc : (a :: A).product B = (B.map fun b => (a, b)) ++ A.product B :=
      List.product_cons a A B
    rw [hpc, List.map_append, List.sum_append, ih, List.map_map]
    rfl

/-- The sorted duplicate-free key list of the `groupby` step only depends
on which keys occur in the input. -/
theorem sortFull_dedup_congr {l₁ l₂ : List AggKey} (h : ∀ k, k ∈ l₁ ↔ k ∈ l₂) :
    List.insertionSort AggKey.fullLe l₁.dedup = List.insertionSort AggKey.fullLe l₂.dedup := by
  have hperm : List.Perm l₁.dedup l₂.dedup :=
    (List.perm_ext_iff_of_nodup (List.nodup_dedup l₁) (List.nodup_dedup l₂)).mpr
      fun a => by simpa [List.mem_dedup] using h a
  exact List.eq_of_perm_of_sorted
    (((List.perm_insertionSort _ _).trans hperm).trans (List.perm_insertionSort _ _).symm)
    (List.sorted_insertionSort _ _) (List.sorted_insertionSort _ _)

/-- Membership in the aggregated artifact: exactly the keys that occur in
the input, each with its multiplicity as count. -/
theorem mem_monthly_nbh_cat {l : List AggKey} {k : AggKey} {c : Nat} :
    (k, c) ∈ monthly_nbh_cat l ↔ (k ∈ l ∧ c = l.count k) := by
  unfold monthly_nbh_cat groupbySize
  simp only [List.mem_insertionSort, List.mem_map, List.mem_dedup, Prod.mk.injEq]
  constructor
  · rintro ⟨k2, hk2, rfl, rfl⟩
    exact ⟨hk2, rfl⟩
  · rintro ⟨hk, rfl⟩
    exact ⟨k, hk, rfl, rfl⟩

/-- Expanding the aggregated artifact back into rows restores every
key's multiplicity. -/
theorem count_expandRows (l : List AggKey) (k : AggKey) :
    (expandRows (monthly_nbh_cat l)).count k = l.count k := by
  unfold expandRows
  rw [List.count_flatMap]
  have hperm : List.Perm (monthly_nbh_cat l) (groupbySize l) := List.perm_insertionSort _ _
  rw [(hperm.map _).sum_eq]
  unfold groupbySize
  rw [List.map_map]
  have hsorted : (List.insertionSort AggKey.fullLe l.dedup).Nodup :=
    ((List.perm_insertionSort _ _).nodup_iff).mpr (List.nodup_dedup l)
  have hterm : ∀ p : AggKey,
      ((List.count k ∘ fun q => List.replicate q.2 q.1) ∘ fun q => (q, l.count q)) p
        = if p = k then l.count p else 0 := by
    intro p
    simp [Function.comp, List.count_replicate]
  rw [List.map_congr_left fun p _ => hterm p]
  by_cases hk : k ∈ l
  · have hks : k ∈ List.insertionSort AggKey.fullLe l.dedup := by
      simpa [List.mem_insertionSort, List.mem_dedup] using hk
    exact sum_map_ite_single _ k (fun p => l.count p) hsorted hks
  · have hks : k ∉ List.insertionSort AggKey.fullLe l.dedup := by
      simpa [List.mem_insertionSort, List.mem_dedup] using hk
    rw [sum_map_ite_zero _ k (fun p => l.count p) hks]
    exact (List.count_eq_zero.mpr hk).symm

/-- Expanding the aggregated artifact back into rows preserves which keys
occur. -/
theorem mem_expandRows (l : List AggKey) (k : AggKey) :
    k ∈ expandRows (monthly_nbh_cat l) ↔ k ∈ l := by
  rw [← List.count_pos_iff, ← List.count_pos_iff (l := l), count_expandRows]

/-- Total count of the aggregated artifact: the number of surviving input
rows. -/
theorem totalCount_monthly_nbh_cat (ks : List AggKey) :
    totalCount (monthly_nbh_cat ks) = ks.length := by
  unfold totalCount
  have hperm : List.Perm (monthly_nbh_cat ks) (groupbySize ks) := List.perm_insertionSort _ _
  rw [(hperm.map _).sum_eq]
  unfold groupbySize
  rw [List.map_map]
  have hperm2 : List.Perm (List.insertionSort AggKey.fullLe ks.dedup) ks.dedup :=
    List.perm_insertionSort _ _
  rw [(hperm2.map _).sum_eq]
  simpa [Function.comp] using List.sum_map_count_dedup_eq_length ks

/-- The resolver's only error is the no-time-source one. -/
theorem resolveTimeSource_error {cols : List String} {e : BuildError}
    (h : resolveTimeSource cols = .error e) : e = .noTimeSource := by
  unfold resolveTimeSource at h
  split_ifs at h
  all_goals simp_all

/-- Normal form of the builder when validation passes and a time source
exists. -/
theorem buildMain_ok (t : RawTable) (hmiss : missingBuild t.cols = []) {src : TimeSource}
    (hres : resolveTimeSource t.cols = .ok src) :
    buildMain t = .ok (monthly_nbh_cat (t.rows.filterMap (rowKey src))) := by
  have hval : validateBuild t = .ok t := by simp [validateBuild, hmiss]
  simp [buildMain, hval, hres, Bind.bind, Except.bind]

/-- Normal form of the builder when validation passes but no time source
exists. -/
theorem buildMain_err (t : RawTable) (hmiss : missingBuild t.cols = [])
    (hres : resolveTimeSource t.cols = .error .noTimeSource) :
    buildMain t = .error .noTimeSource := by
  have hval : validateBuild t = .ok t := by simp [validateBuild, hmiss]
  simp [buildMain, hval, hres, Bind.bind, Except.bind]

/-- Normal form of `load_monthly` on success. -/
theorem load_monthly_ok {t : MonthlyTable} {out : List MonthlyRow}
    (h : load_monthly t = .ok out) :
    out = t.rows.filterMap fun r => r.month.map fun ts =>
      ⟨ts, r.neighborhood, r.incident_category, r.incidents.getD 0, ts.ym.y⟩ := by
  unfold load_monthly at h
  cases hv : validateArtifact requiredMonthly t.cols with
  | error e => rw [hv] at h; simp [Bind.bind, Except.bind] at h
  | ok u =>
    cases u
    rw [hv] at h
    simpa [Bind.bind, Except.bind] using h.symm

/-- Normal form of `load_hourly_weekday` on success. -/
theorem load_hourly_ok {t : HourlyTable} {out : List HourlyRow}
    (h : load_hourly_weekday t = .ok out) :
    out = (t.rows.filter fun r => decide (0 ≤ coercedHour r ∧ coercedHour r ≤ 23)).map
      procHourly := by
  unfold load_hourly_weekday at h
  cases hv : validateArtifact requiredHourly t.cols with
  | error e => rw [hv] at h; simp [Bind.bind, Except.bind] at h
  | ok u =>
    cases u
    rw [hv] at h
    simpa [Bind.bind, Except.bind] using h.symm

/-- Normal form of `load_forecast` on success. -/
theorem load_forecast_ok {t : ForecastTable} {out : List ForecastRow}
    (h : load_forecast t = .ok out) :
    out = List.insertionSort frowLe (t.rows.filterMap fun r => r.month.map fun ts =>
      ⟨ts, r.forecast, r.lower, r.upper⟩) := by
  unfold load_forecast at h
  cases hv : validateArtifact requiredForecast t.cols with
  | error e => rw [hv] at h; simp [Bind.bind, Except.bind] at h
  | ok u =>
    cases u
    rw [hv] at h
    simpa [Bind.bind, Except.bind] using h.symm

/-! Claim theorems -/

/-- C9: aggregation is idempotent — expanding the aggregated artifact
back into one row per counted incident and aggregating the result yields
the same artifact (here even with identical row order, which implies the
claimed equality up to row order) as aggregating the original rows. -/
theorem C9_aggregation_idempotent :
    ∀ l : List AggKey, monthly_nbh_cat (expandRows (monthly_nbh_cat l)) = monthly_nbh_cat l := by
  intro l
  have hs : List.insertionSort AggKey.fullLe (expandRows (monthly_nbh_cat l)).dedup
      = List.insertionSort AggKey.fullLe l.dedup :=
    sortFull_dedup_congr (mem_expandRows l)
  show List.insertionSort pairSortLe
      ((List.insertionSort AggKey.fullLe (expandRows (monthly_nbh_cat l)).dedup).map
        fun k => (k, (expandRows (monthly_nbh_cat l)).count k))
    = List.insertionSort pairSortLe
      ((List.insertionSort AggKey.fullLe l.dedup).map fun k => (k, l.count k))
  rw [hs]
  congr 1
  exact List.map_congr_left fun k _ => by rw [count_expandRows]

/-- C8: the aggregated artifact is sparse — every materialized row has
incident count at least 1 (namely its key's multiplicity in the input),
and a key combination is absent from the artifact exactly when its count
over the input rows is zero. -/
theorem C8_sparse_aggregate :
    ∀ (l : List AggKey) (k : AggKey) (c : Nat),
      ((k, c) ∈ monthly_nbh_cat l → (1 ≤ c ∧ c = l.count k)) ∧
      ((∀ n, (k, n) ∉ monthly_nbh_cat l) ↔ l.count k = 0) := by
  intro l k c
  constructor
  · intro h
    obtain ⟨hk, rfl⟩ := mem_monthly_nbh_cat.mp h
    exact ⟨List.count_pos_iff.mpr hk, rfl⟩
  · constructor
    · intro h
      by_contra hne
      have hk : k ∈ l := List.count_pos_iff.mp (Nat.pos_of_ne_zero hne)
      exact h (l.count k) (mem_monthly_nbh_cat.mpr ⟨hk, rfl⟩)
    · intro h n hn
      obtain ⟨hk, rfl⟩ := mem_monthly_nbh_cat.mp hn
      exact (List.count_eq_zero.mp h) hk

/-- C8 witness: a single-key input materializes that key with count 1. -/
theorem C8_witness : 1 ≤ 1 ∧ (1 : Nat) = List.count sampleKey [sampleKey] :=
  (C8_sparse_aggregate [sampleKey] sampleKey 1).1 (by decide)

/-- C6 (amended): the builder's artifact rows are sorted by the
`sort_values` keys (year_month, neighborhood, incident_category) — time
first, but with `year` omitted from the sort keys — and the citywide
monthly view contains no duplicate month. -/
theorem C6_output_ordering :
    ∀ (l : List AggKey) (rows : List MonthlyRow),
      List.Sorted pairSortLe (monthly_nbh_cat l) ∧
      ((city_monthly rows).map fun p => p.1).Nodup := by
  intro l rows
  refine ⟨List.sorted_insertionSort _ _, ?_⟩
  have hperm : List.Perm (city_monthly rows) (groupbySumMonth rows) :=
    List.perm_insertionSort _ _
  rw [List.Perm.nodup_iff (hperm.map _)]
  unfold groupbySumMonth
  rw [List.map_map]
  have hid : ((fun p : Timestamp × Int => p.1) ∘ fun ts => (ts, sumIncidents rows ts)) = id := rfl
  rw [hid, List.map_id]
  exact ((List.perm_insertionSort _ _).nodup_iff).mpr (List.nodup_dedup _)

/-- C6 counterexample: two keys in the same month with different years;
the produced artifact is not sorted by the full declared key order
(year_month, year, neighborhood, incident_category) because `sort_values`
omits `year`. -/
theorem C6_counterexample :
    monthly_nbh_cat [cexKeyA, cexKeyB] = [(cexKeyA, 1), (cexKeyB, 1)] ∧
    ¬ List.Sorted pairFullLe (monthly_nbh_cat [cexKeyA, cexKeyB]) :=
  ⟨by decide, by decide⟩

/-- C3: the time-axis resolver takes the first available source in the
fixed order year_month, month, incident_datetime-truncated-to-month; it
fails with the NoTimeSource error iff none of the three columns is in the
schema; and with a valid schema the builder never raises it, whatever the
row values are (per-row parse failures are coerced, not raised). -/
theorem C3_time_axis_resolution :
    ∀ cols : List String,
      ("year_month" ∈ cols → resolveTimeSource cols = .ok .yearMonthCol) ∧
      ("year_month" ∉ cols → "month" ∈ cols → resolveTimeSource cols = .ok .monthCol) ∧
      ("year_month" ∉ cols → "month" ∉ cols → "incident_datetime" ∈ cols →
        resolveTimeSource cols = .ok .datetimeCol) ∧
      (resolveTimeSource cols = .error .noTimeSource ↔
        ("year_month" ∉ cols ∧ "month" ∉ cols ∧ "incident_datetime" ∉ cols)) ∧
      (∀ r : RawRow,
        derivedMonth .yearMonthCol r = r.year_month ∧
        derivedMonth .monthCol r = r.month ∧
        derivedMonth .datetimeCol r = r.incident_datetime.map Timestamp.truncToMonth ∧
        (∀ ts, r.incident_datetime = some ts → derivedMonth .datetimeCol r = some ⟨ts.ym, 1⟩)) ∧
      (∀ rows : List RawRow, missingBuild cols = [] →
        (buildMain ⟨cols, rows⟩ = .error .noTimeSource ↔
          resolveTimeSource cols = .error .noTimeSource)) := by
  intro cols
  refine ⟨?_, ?_, ?_, ?_, ?_, ?_⟩
  · intro h; simp [resolveTimeSource, h]
  · intro h1 h2; simp [resolveTimeSource, h1, h2]
  · intro h1 h2 h3; simp [resolveTimeSource, h1, h2, h3]
  · constructor
    · intro h
      by_cases h1 : "year_month" ∈ cols
      · simp [resolveTimeSource, h1] at h
      · by_cases h2 : "month" ∈ cols
        · simp [resolveTimeSource, h1, h2] at h
        · by_cases h3 : "incident_datetime" ∈ cols
          · simp [resolveTimeSource, h1, h2, h3] at h
          · exact ⟨h1, h2, h3⟩
    · rintro ⟨h1, h2, h3⟩
      simp [resolveTimeSource, h1, h2, h3]
  · intro r
    exact ⟨rfl, rfl, rfl, fun ts hts => by
      simp [derivedMonth, hts, Timestamp.truncToMonth]⟩
  · intro rows hmiss
    cases hres : resolveTimeSource cols with
    | ok src =>
      have hb := buildMain_ok ⟨cols, rows⟩ hmiss hres
      simp [hb, hres]
    | error e =>
      cases resolveTimeSource_error hres
      have hb := buildMain_err ⟨cols, rows⟩ hmiss hres
      simp [hb, hres]

/-- C3 witness: with only a `month` column, the resolver picks it. -/
theorem C3_witness : resolveTimeSource ["month"] = .ok .monthCol :=
  (C3_time_axis_resolution ["month"]).2.1 (by decide) (by decide)

/-- C2 (amended): validation fails exactly when a required column is
missing, naming exactly the set of missing columns; the dashboard
loaders list them in sorted order, while the artifact builder lists them
in its declared required-column order; validation succeeds with the
table unchanged when all required columns are present. -/
theorem C2_validation :
    ∀ (t : RawTable) (req cols : List String),
      (validateBuild t = .ok t ↔ ∀ c ∈ requiredBuild, c ∈ t.cols) ∧
      (missingBuild t.cols ≠ [] →
        validateBuild t = .error (.missingColumns (missingBuild t.cols))) ∧
      (∀ c, c ∈ missingBuild t.cols ↔ (c ∈ requiredBuild ∧ c ∉ t.cols)) ∧
      (validateArtifact req cols = .ok () ↔ ∀ c ∈ req, c ∈ cols) ∧
      (∀ L, validateArtifact req cols = .error L →
        (List.Sorted strLe L ∧ ∀ c, c ∈ L ↔ (c ∈ req ∧ c ∉ cols))) := by
  intro t req cols
  refine ⟨?_, ?_, ?_, ?_, ?_⟩
  · unfold validateBuild
    by_cases h : missingBuild t.cols = []
    · have hall : ∀ c ∈ requiredBuild, c ∈ t.cols := by
        intro c hc
        by_contra hnc
        have hcin : c ∈ missingBuild t.cols := by
          simp [missingBuild, List.mem_filter, hc, hnc]
        rw [h] at hcin
        cases hcin
      rw [if_neg fun hne => hne h]
      simpa using hall
    · rw [if_pos h]
      have hx : ∃ c ∈ requiredBuild, c ∉ t.cols := by
        obtain ⟨c, hc⟩ := List.exists_mem_of_ne_nil _ h
        have hm : c ∈ requiredBuild ∧ c ∉ t.cols := by
          simpa [missingBuild, List.mem_filter] using hc
        exact ⟨c, hm.1, hm.2⟩
      constructor
      · intro hfalse
        exact absurd hfalse (by simp)
      · intro hall
        obtain ⟨c, hc, hnc⟩ := hx
        exact absurd (hall c hc) hnc
  · intro h
    simp [validateBuild, h]
  · intro c
    simp [missingBuild, List.mem_filter]
  · unfold validateArtifact
    by_cases h : (req.filter fun c => decide (c ∉ cols)) = []
    · have hall : ∀ c ∈ req, c ∈ cols := by
        intro c hc
        by_contra hnc
        have hcin : c ∈ req.filter fun c => decide (c ∉ cols) := by
          simp [List.mem_filter, hc, hnc]
        rw [h] at hcin
        cases hcin
      rw [if_neg fun hne => hne h]
      simpa using hall
    · rw [if_pos h]
      have hx : ∃ c ∈ req, c ∉ cols := by
        obtain ⟨c, hc⟩ := List.exists_mem_of_ne_nil _ h
        have hm : c ∈ req ∧ c ∉ cols := by
          simpa [List.mem_filter] using hc
        exact ⟨c, hm.1, hm.2⟩
      constructor
      · intro hfalse
        exact absurd hfalse (by simp)
      · intro hall
        obtain ⟨c, hc, hnc⟩ := hx
        exact absurd (hall c hc) hnc
  · intro L hL
    unfold validateArtifact at hL
    by_cases h : (req.filter fun c => decide (c ∉ cols)) = []
    · rw [if_neg fun hne => hne h] at hL
      exact absurd hL (by simp)
    · rw [if_pos h] at hL
      injection hL with h2
      subst h2
      refine ⟨List.sorted_insertionSort _ _, fun c => ?_⟩
      simp [List.mem_insertionSort, List.mem_filter]

/-- C2 witness: the monthly loader on a table with only a `month` column
reports the other three required columns, sorted. -/
theorem C2_witness :
    List.Sorted strLe ["incident_category", "incidents", "neighborhood"] ∧
    (∀ c, c ∈ (["incident_category", "incidents", "neighborhood"] : List String) ↔
      (c ∈ requiredMonthly ∧ c ∉ (["month"] : List String))) :=
  (C2_validation ⟨["year"], []⟩ requiredMonthly ["month"]).2.2.2.2
    ["incident_category", "incidents", "neighborhood"] (by rfl)

/-- C2 counterexample: the builder on a table having only the `year`
column fails naming `["neighborhood", "incident_category"]`, which is not
in sorted order. -/
theorem C2_counterexample :
    validateBuild ⟨["year"], []⟩ = .error (.missingColumns ["neighborhood", "incident_category"]) ∧
    ¬ List.Sorted strLe ["neighborhood", "incident_category"] :=
  ⟨by rfl, by decide⟩

/-- C4: every row whose post-coercion hour is outside [0,23] is absent
from the loaded hour×weekday view; hours are never clamped (each exposed
row carries exactly the post-coercion hour of its source row); and an
unparsable hour is coerced to the fallback 0 before the range filter, so
that row is retained at hour 0. -/
theorem C4_hour_range_filter :
    ∀ (t : HourlyTable) (out : List HourlyRow), load_hourly_weekday t = .ok out →
      (∀ p ∈ out, 0 ≤ p.hour ∧ p.hour ≤ 23) ∧
      (∀ p ∈ out, ∃ r ∈ t.rows, p = procHourly r ∧ p.hour = coercedHour r) ∧
      (∀ r ∈ t.rows, ¬ (0 ≤ coercedHour r ∧ coercedHour r ≤ 23) → procHourly r ∉ out) ∧
      (∀ r ∈ t.rows, r.hour = none → (procHourly r ∈ out ∧ (procHourly r).hour = 0)) := by
  intro t out h
  have hout := load_hourly_ok h
  subst hout
  refine ⟨?_, ?_, ?_, ?_⟩
  · intro p hp
    rcases List.mem_map.mp hp with ⟨r, hr, rfl⟩
    have hrange := (List.mem_filter.mp hr).2
    simpa using hrange
  · intro p hp
    rcases List.mem_map.mp hp with ⟨r, hr, rfl⟩
    exact ⟨r, (List.mem_filter.mp hr).1, rfl, rfl⟩
  · intro r _ hbad hmem
    rcases List.mem_map.mp hmem with ⟨r2, hr2, he⟩
    have h2 : 0 ≤ coercedHour r2 ∧ coercedHour r2 ≤ 23 := by
      simpa using (List.mem_filter.mp hr2).2
    apply hbad
    have hh : coercedHour r2 = coercedHour r := congrArg HourlyRow.hour he
    rw [← hh]
    exact h2
  · intro r hr hnone
    have hc : coercedHour r = 0 := by simp [coercedHour, hnone]
    refine ⟨List.mem_map.mpr ⟨r, List.mem_filter.mpr ⟨hr, by simp [hc]⟩, rfl⟩, ?_⟩
    simpa [procHourly] using hc

/-- C4 witness: on a table with an unparsable hour, an hour 30 and an
hour 5, the loaded view keeps the first at hour 0, drops the second and
keeps the third unchanged. -/
theorem C4_witness :
    (∀ p ∈ hrOut, 0 ≤ p.hour ∧ p.hour ≤ 23) ∧
    (∀ p ∈ hrOut, ∃ r ∈ hrTable.rows, p = procHourly r ∧ p.hour = coercedHour r) ∧
    (∀ r ∈ hrTable.rows, ¬ (0 ≤ coercedHour r ∧ coercedHour r ≤ 23) → procHourly r ∉ hrOut) ∧
    (∀ r ∈ hrTable.rows, r.hour = none → (procHourly r ∈ hrOut ∧ (procHourly r).hour = 0)) :=
  C4_hour_range_filter hrTable hrOut rfl

/-- C5 (amended): the forecast loader validates column presence, keeps
exactly the rows with a parseable month — carrying the stored forecast,
lower and upper values unchanged — and exposes them sorted by month in
non-decreasing order; it does not enforce `lower <= forecast <= upper`
nor strictly-increasing gap-free months. -/
theorem C5_forecast_loader :
    ∀ (t : ForecastTable) (out : List ForecastRow), load_forecast t = .ok out →
      List.Sorted frowLe out ∧
      (∀ p ∈ out, ∃ r ∈ t.rows, r.month = some p.month ∧ p.forecast = r.forecast ∧
        p.lower = r.lower ∧ p.upper = r.upper) := by
  intro t out h
  have hout := load_forecast_ok h
  subst hout
  refine ⟨List.sorted_insertionSort _ _, ?_⟩
  intro p hp
  rw [List.mem_insertionSort] at hp
  rcases List.mem_filterMap.mp hp with ⟨r, hr, hg⟩
  rcases Option.map_eq_some'.mp hg with ⟨ts, hts, he⟩
  subst he
  exact ⟨r, hr, hts, rfl, rfl, rfl⟩

/-- C5 witness: a well-formed forecast table stored out of month order
loads sorted, with all values carried through unchanged. -/
theorem C5_witness :
    List.Sorted frowLe fcGoodOut ∧
    (∀ p ∈ fcGoodOut, ∃ r ∈ fcGoodTable.rows, r.month = some p.month ∧ p.forecast = r.forecast ∧
      p.lower = r.lower ∧ p.upper = r.upper) :=
  C5_forecast_loader fcGoodTable fcGoodOut rfl

/-- C5 counterexample: the loader exposes, without error, a forecast view
containing a row with `lower > forecast` and a gap between consecutive
months, so the claimed invariant does not hold of the exposed
artifact. -/
theorem C5_counterexample :
    load_forecast fcBadTable = .ok fcBadOut ∧ ¬ forecastClaimOk fcBadOut :=
  ⟨rfl, by decide⟩

/-- C7: with a valid schema the builder raises no error; a row whose
grouping key is incomplete after coercion (month, year, neighborhood or
category missing — in particular an unparsable timestamp with no fallback
month value) is dropped before aggregation, leaving the artifact
unchanged; the artifact's total count is exactly the number of rows with
a complete key; and the monthly loader likewise silently drops a stored
row whose month is unparsable. -/
theorem C7_silent_row_drop :
    ∀ (t : RawTable) (src : TimeSource) (r : RawRow),
      missingBuild t.cols = [] → resolveTimeSource t.cols = .ok src →
      ((∃ A, buildMain t = .ok A) ∧
       buildMain t = .ok (monthly_nbh_cat (t.rows.filterMap (rowKey src))) ∧
       (rowKey src r = none → buildMain ⟨t.cols, r :: t.rows⟩ = buildMain t) ∧
       (∀ A, buildMain t = .ok A → totalCount A = (t.rows.filterMap (rowKey src)).length) ∧
       (∀ (mt : MonthlyTable) (mr : MonthlyRawRow), mr.month = none →
         load_monthly ⟨mt.cols, mr :: mt.rows⟩ = load_monthly mt)) := by
  intro t src r hmiss hres
  have hb := buildMain_ok t hmiss hres
  refine ⟨⟨_, hb⟩, hb, ?_, ?_, ?_⟩
  · intro hnone
    have hb2 := buildMain_ok ⟨t.cols, r :: t.rows⟩ hmiss hres
    rw [hb2, hb]
    congr 1
    show monthly_nbh_cat ((r :: t.rows).filterMap (rowKey src)) = _
    rw [List.filterMap_cons_none hnone]
  · intro A hA
    rw [hb] at hA
    injection hA with h2
    subst h2
    exact totalCount_monthly_nbh_cat _
  · intro mt mr hnone
    unfold load_monthly
    cases hv : validateArtifact requiredMonthly mt.cols with
    | error e => simp [hv, Bind.bind, Except.bind]
    | ok u =>
      cases u
      simp only [hv]
      simp [List.filterMap_cons, hnone]

/-- C7 witness: on a table whose time axis is the `month` column,
appending a row with an unparsable timestamp leaves the artifact
unchanged and raises no error. -/
theorem C7_witness :
    (∃ A, buildMain bTable = .ok A) ∧
    buildMain bTable = .ok (monthly_nbh_cat (bTable.rows.filterMap (rowKey .monthCol))) ∧
    (rowKey .monthCol bBadRow = none →
      buildMain ⟨bTable.cols, bBadRow :: bTable.rows⟩ = buildMain bTable) ∧
    (∀ A, buildMain bTable = .ok A →
      totalCount A = (bTable.rows.filterMap (rowKey .monthCol)).length) ∧
    (∀ (mt : MonthlyTable) (mr : MonthlyRawRow), mr.month = none →
      load_monthly ⟨mt.cols, mr :: mt.rows⟩ = load_monthly mt) :=
  C7_silent_row_drop bTable .monthCol bBadRow rfl rfl

/-- C10: in the loaded monthly view the `year` column always equals the
calendar year of the parsed month, because the loader recomputes it; any
`year` values present in the stored artifact are ignored, so changing
them does not change the loaded view. -/
theorem C10_year_recomputed :
    ∀ (t : MonthlyTable) (out : List MonthlyRow), load_monthly t = .ok out →
      (∀ p ∈ out, p.year = p.month.ym.y) ∧
      (∀ f : Option Int → Option Int,
        load_monthly ⟨t.cols, t.rows.map fun r =>
          ⟨r.month, r.neighborhood, r.incident_category, r.incidents, f r.year⟩⟩
          = load_monthly t) := by
  intro t out h
  have hout := load_monthly_ok h
  subst hout
  constructor
  · intro p hp
    rcases List.mem_filterMap.mp hp with ⟨r, _, hg⟩
    rcases Option.map_eq_some'.mp hg with ⟨ts, _, he⟩
    subst he
    rfl
  · intro f
    unfold load_monthly
    cases hv : validateArtifact requiredMonthly t.cols with
    | error e => simp [hv, Bind.bind, Except.bind]
    | ok u =>
      cases u
      simp only [hv]
      congr 1
      rw [List.filterMap_map]
      rfl

/-- C10 witness: a stored artifact with stale stored years loads with the
years recomputed from the months. -/
theorem C10_witness :
    (∀ p ∈ mOut, p.year = p.month.ym.y) ∧
    (∀ f : Option Int → Option Int,
      load_monthly ⟨mTable.cols, mTable.rows.map fun r =>
        ⟨r.month, r.neighborhood, r.incident_category, r.incidents, f r.year⟩⟩
        = load_monthly mTable) :=
  C10_year_recomputed mTable mOut rfl

/-- C1: for every month of the citywide monthly series (the groupby-sum
over the loaded neighborhood×category monthly table, as computed for both
`city_monthly` and `hist_citywide`), its count equals the sum of the
neighborhood×category monthly counts over all neighborhoods and
categories of that table for that month, exactly. -/
theorem C1_citywide_consistency :
    ∀ (rows : List MonthlyRow) (ts : Timestamp) (c : Int),
      (ts, c) ∈ city_monthly rows →
      c = ((nbhList rows).map fun n =>
        ((catList rows).map fun cat => nbhCatCount rows ts n cat).sum).sum := by
  intro rows ts c hmem
  unfold city_monthly at hmem
  rw [List.mem_insertionSort] at hmem
  unfold groupbySumMonth at hmem
  rcases List.mem_map.mp hmem with ⟨ts2, _, he⟩
  rw [Prod.mk.injEq] at he
  obtain ⟨rfl, rfl⟩ := he
  have hnd : ((nbhList rows).product (catList rows)).Nodup :=
    (List.nodup_dedup _).product (List.nodup_dedup _)
  have hcov : ∀ a ∈ rows.filter fun r => decide (r.month = ts2),
      (a.neighborhood, a.incident_category) ∈ (nbhList rows).product (catList rows) := by
    intro a ha
    have ha2 : a ∈ rows := List.mem_of_mem_filter ha
    exact List.mem_product.mpr ⟨List.mem_dedup.mpr (List.mem_map_of_mem _ ha2),
      List.mem_dedup.mpr (List.mem_map_of_mem _ ha2)⟩
  have hpart := sum_partition ((nbhList rows).product (catList rows))
    (fun r : MonthlyRow => (r.neighborhood, r.incident_category)) (fun r => r.incidents) hnd
    (rows.filter fun r => decide (r.month = ts2)) hcov
  have hfix : ∀ p : String × String,
      (((rows.filter fun r => decide (r.month = ts2)).filter fun a =>
        decide ((a.neighborhood, a.incident_category) = p)).map fun r => r.incidents).sum
      = nbhCatCount rows ts2 p.1 p.2 := by
    intro p
    rw [List.filter_filter]
    unfold nbhCatCount
    congr 1
    congr 1
    apply List.filter_congr
    intro r _
    have hiff : ((r.neighborhood, r.incident_category) = p ∧ r.month = ts2) ↔
        (r.month = ts2 ∧ r.neighborhood = p.1 ∧ r.incident_category = p.2) := by
      cases p
      rw [Prod.mk.injEq]
      constructor
      · rintro ⟨⟨h1, h2⟩, h3⟩; exact ⟨h3, h1, h2⟩
      · rintro ⟨h3, h1, h2⟩; exact ⟨⟨h1, h2⟩, h3⟩
    calc (decide ((r.neighborhood, r.incident_category) = p) && decide (r.month = ts2))
        = decide ((r.neighborhood, r.incident_category) = p ∧ r.month = ts2) :=
          (Bool.decide_and _ _).symm
    _ = decide (r.month = ts2 ∧ r.neighborhood = p.1 ∧ r.incident_category = p.2) :=
          decide_eq_decide.mpr hiff
  show sumIncidents rows ts2 = _
  unfold sumIncidents
  rw [hpart]
  rw [← sum_product_nested (nbhList rows) (catList rows)
    fun n cat => nbhCatCount rows ts2 n cat]
  exact congrArg List.sum (List.map_congr_left fun p _ => hfix p)

/-- C1 witness: 3 thefts plus 2 assaults in the Mission in one month give
a citywide count of 5 for that month, equal to the double sum of the
per-neighborhood per-category counts. -/
theorem C1_witness :
    (5 : Int) = ((nbhList wRowsMonthly).map fun n =>
      ((catList wRowsMonthly).map fun cat => nbhCatCount wRowsMonthly wMonth n cat).sum).sum :=
  C1_citywide_consistency wRowsMonthly wMonth 5 (by decide)

end SFCrime
